import Mathlib

/- Verification of the bounded-concurrency request admission pool of the
rideshare example service (`examples/golang-push/rideshare/main.go` and the
`utility.RequestPool` it delegates to), against its design specification. -/

namespace RideshareAdmission

/-- Modelled from the spec: the `AdmissionPool` entity (spec §3).  The pool
implementation (`utility.RequestPool`, `utility/requests_pool.go`) is not among
the given sources — only its caller `main.go` is — so its state is taken from
the spec's data model: an immutable `capacity` set at construction plus four
mutable counters. -/
structure Pool where
  capacity : Int
  inFlight : Int
  totalSubmitted : Int
  totalRejected : Int
  totalCompleted : Int
  deriving Repr, DecidableEq

/-- The `StatsSnapshot` value type (spec §3), rendered by `utility.Stats` in
`main.go`: a point-in-time copy of the five counters. -/
structure Stats where
  capacity : Int
  inFlight : Int
  totalSubmitted : Int
  totalRejected : Int
  totalCompleted : Int
  deriving Repr, DecidableEq

/-- Modelled from the spec: the construction-time error taxonomy (spec §7
item 1). -/
inductive PoolError where
  | invalidCapacity
  deriving Repr, DecidableEq

/-- Synchronous outcome of one submission (spec §4.1): admitted, or rejected
with `RejectionError` — the only error the pool itself raises. -/
inductive SubmitResult where
  | admitted
  | rejected
  deriving Repr, DecidableEq

/-- An exit path of an admitted unit of work (spec §4.1 edge cases, §5):
normal return, a returned error, or a panic/abnormal termination. -/
inductive ExitPath where
  | normal
  | errored
  | panicked
  deriving Repr, DecidableEq

/-- The fresh pool produced for a valid capacity: all counters zero. -/
def initPool (c : Int) : Pool :=
  ⟨c, 0, 0, 0, 0⟩

/-- Modelled from the spec: `NewPool` (spec §4.1 Construction).  Fails with
`InvalidCapacity` when the requested capacity is ≤ 0 and produces no pool;
otherwise yields a pool whose `capacity` field is the argument and whose
counters are zero. -/
def NewPool (c : Int) : Except PoolError Pool :=
  if c ≤ 0 then Except.error PoolError.invalidCapacity else Except.ok (initPool c)

/-- Modelled from the spec: the atomic admission decision of `Submit`
(spec §4.1).  If `inFlight < capacity` the unit is admitted — `inFlight` and
`totalSubmitted` are incremented; otherwise the submission is rejected —
`totalSubmitted` and `totalRejected` are incremented. -/
def submit (p : Pool) : Pool × SubmitResult :=
  if p.inFlight < p.capacity then
    (⟨p.capacity, p.inFlight + 1, p.totalSubmitted + 1, p.totalRejected, p.totalCompleted⟩,
     SubmitResult.admitted)
  else
    (⟨p.capacity, p.inFlight, p.totalSubmitted + 1, p.totalRejected + 1, p.totalCompleted⟩,
     SubmitResult.rejected)

/-- The completion bookkeeping itself: the capacity slot is released
(`inFlight` decremented) and `totalCompleted` incremented; nothing else
changes. -/
def releaseSlot (p : Pool) : Pool :=
  ⟨p.capacity, p.inFlight - 1, p.totalSubmitted, p.totalRejected, p.totalCompleted + 1⟩

/-- Modelled from the spec: completion of an admitted unit (spec §4.1, §5).
The bookkeeping runs unconditionally on every exit path of the unit's
execution — normal return, returned error, or panic — not only on success. -/
def complete (e : ExitPath) (p : Pool) : Pool :=
  match e with
  | ExitPath.normal => releaseSlot p
  | ExitPath.errored => releaseSlot p
  | ExitPath.panicked => releaseSlot p

/-- Modelled from the spec: the full lifecycle of one `Submit` call whose unit,
if admitted, eventually finishes along exit path `e` (spec §4.1, §2).  Returns
the final pool, the synchronous outcome given to the caller, and the number of
times the supplied unit of work is executed. -/
def submitRun (e : ExitPath) (p : Pool) : Pool × SubmitResult × Nat :=
  match submit p with
  | (q, SubmitResult.admitted) => (complete e q, SubmitResult.admitted, 1)
  | (q, SubmitResult.rejected) => (q, SubmitResult.rejected, 0)

/-- `Stats` (spec §4.1): a point-in-time copy of the five counters. -/
def stats (p : Pool) : Stats :=
  ⟨p.capacity, p.inFlight, p.totalSubmitted, p.totalRejected, p.totalCompleted⟩

/-- `Stats` viewed as an operation on the pool: it yields the snapshot and
hands the pool back unchanged (read-only). -/
def statsOp (p : Pool) : Stats × Pool :=
  (stats p, p)

/-- Observable outcome of one invocation of the wrapped route handler of
`main.go`: how many times the underlying handler `f` ran, whether it ran
inline (synchronously in the caller, outside any pool), the pool state
afterwards, and the pool's admission outcome when a pool was involved. -/
structure RouteOutcome where
  fRuns : Nat
  ranInline : Bool
  poolAfter : Option Pool
  poolOutcome : Option SubmitResult
  deriving Repr, DecidableEq

/-- Shallow embedding of `routeHandler` (`main.go` lines 24–36): when `pool`
is `nil` the handler `f` is called once, inline, and the wrapper returns with
no pool bookkeeping; otherwise the handler body is wrapped in a unit of work
(returning `nil`) and handed to `pool.Handle`, whose admission semantics is
`submitRun`.  `e` is the exit path of the handler body when it runs. -/
def routeHandler (pool : Option Pool) (e : ExitPath) : RouteOutcome :=
  match pool with
  | none => RouteOutcome.mk 1 true none none
  | some p =>
      let r := submitRun e p
      RouteOutcome.mk r.2.2 false (some r.1) (some r.2.1)

/-- Shallow embedding of the `/stats` endpoint body (`main.go` lines 88–95):
`stats` starts as the zero value of `utility.Stats` (every field 0) and is
overwritten by `pool.Stats()` only when the pool is non-nil. -/
def statsEndpoint (pool : Option Pool) : Stats :=
  match pool with
  | none => Stats.mk 0 0 0 0 0
  | some p => stats p

/-- Modelled from the spec: one atomic state change of the pool (spec §5).
The admission check-and-increment is a single serialized step, as is the
completion bookkeeping; a completion step can only occur while some admitted
unit is in flight.  Interleavings of concurrent `Submit` calls and completions
are exactly the sequences of such steps. -/
inductive Step : Pool → Pool → Prop where
  | submitStep (p : Pool) : Step p (submit p).1
  | completeStep (e : ExitPath) (p : Pool) : 0 < p.inFlight → Step p (complete e p)

/-- All pool states reachable from a given state through any interleaving of
submissions and completions. -/
inductive Reachable : Pool → Pool → Prop where
  | refl (p : Pool) : Reachable p p
  | tail {p q r : Pool} : Reachable p q → Step q r → Reachable p r

theorem complete_eq_releaseSlot (e : ExitPath) (p : Pool) : complete e p = releaseSlot p := by
  cases e <;> rfl

theorem submit_fst (p : Pool) :
    (submit p).1 =
      if p.inFlight < p.capacity then
        ⟨p.capacity, p.inFlight + 1, p.totalSubmitted + 1, p.totalRejected, p.totalCompleted⟩
      else
        ⟨p.capacity, p.inFlight, p.totalSubmitted + 1, p.totalRejected + 1, p.totalCompleted⟩ := by
  unfold submit
  split <;> rfl

/-- The inductive invariant carried along every reachable state: the capacity
field is untouched, `inFlight` is nonnegative and (for a nonnegative capacity)
bounded by it, and the conservation law among the four counters holds. -/
theorem reachable_good (c : Int) (p : Pool) (h : Reachable (initPool c) p) :
    p.capacity = c ∧ 0 ≤ p.inFlight ∧ (0 ≤ c → p.inFlight ≤ c) ∧
    p.totalSubmitted = p.totalRejected + p.totalCompleted + p.inFlight := by
  induction h with
  | refl => exact ⟨rfl, le_refl 0, fun h => h, by simp [initPool]⟩
  | tail hr hs ih =>
      obtain ⟨hcap, hnn, hub, hcons⟩ := ih
      cases hs with
      | submitStep q =>
          rw [submit_fst]
          split
          next hlt =>
            refine ⟨hcap, by dsimp; omega, fun h0 => ?_, by dsimp; omega⟩
            dsimp
            omega
          next hlt =>
            refine ⟨hcap, hnn, fun h0 => ?_, by dsimp; omega⟩
            dsimp
            exact hub h0
      | completeStep e q hq =>
          rw [complete_eq_releaseSlot]
          refine ⟨hcap, by dsimp [releaseSlot]; omega, fun h0 => ?_, by dsimp [releaseSlot]; omega⟩
          dsimp [releaseSlot]
          have hub0 := hub h0
          omega

/-- C1: for every pool constructed with positive capacity and every
interleaving of atomic submissions and completions, every reachable state —
hence every `Stats` snapshot taken at that instant — satisfies
`0 ≤ inFlight ≤ capacity`; `inFlight` never exceeds `capacity` even when
submissions race for the last free slot. -/
theorem inFlight_never_exceeds_capacity (c : Int) (p : Pool) (hc : 0 < c)
    (h : Reachable (initPool c) p) :
    0 ≤ p.inFlight ∧ p.inFlight ≤ p.capacity ∧
    0 ≤ (stats p).inFlight ∧ (stats p).inFlight ≤ (stats p).capacity := by
  obtain ⟨hcap, hnn, hub, _⟩ := reachable_good c p h
  have hle : p.inFlight ≤ p.capacity := by
    have := hub (le_of_lt hc)
    omega
  exact ⟨hnn, hle, hnn, hle⟩

theorem inFlight_never_exceeds_capacity_witness :
    0 ≤ (submit (initPool 2)).1.inFlight ∧
    (submit (initPool 2)).1.inFlight ≤ (submit (initPool 2)).1.capacity ∧
    0 ≤ (stats (submit (initPool 2)).1).inFlight ∧
    (stats (submit (initPool 2)).1).inFlight ≤ (stats (submit (initPool 2)).1).capacity :=
  inFlight_never_exceeds_capacity 2 (submit (initPool 2)).1 (by decide)
    (Reachable.tail (Reachable.refl (initPool 2)) (Step.submitStep (initPool 2)))

/-- C2: at every reachable instant the counters satisfy the conservation law
`totalSubmitted = totalRejected + totalCompleted + inFlight`; consequently
`totalCompleted ≤ totalSubmitted - totalRejected` always holds, with equality
exactly when `inFlight` has drained to zero. -/
theorem counters_conservation_law (c : Int) (p : Pool)
    (h : Reachable (initPool c) p) :
    p.totalSubmitted = p.totalRejected + p.totalCompleted + p.inFlight ∧
    p.totalCompleted ≤ p.totalSubmitted - p.totalRejected ∧
    (p.totalCompleted = p.totalSubmitted - p.totalRejected ↔ p.inFlight = 0) := by
  obtain ⟨_, hnn, _, hcons⟩ := reachable_good c p h
  exact ⟨hcons, by omega, by omega⟩

theorem counters_conservation_law_witness :
    (submit (initPool 1)).1.totalSubmitted =
      (submit (initPool 1)).1.totalRejected + (submit (initPool 1)).1.totalCompleted +
        (submit (initPool 1)).1.inFlight ∧
    (submit (initPool 1)).1.totalCompleted ≤
      (submit (initPool 1)).1.totalSubmitted - (submit (initPool 1)).1.totalRejected ∧
    ((submit (initPool 1)).1.totalCompleted =
        (submit (initPool 1)).1.totalSubmitted - (submit (initPool 1)).1.totalRejected ↔
      (submit (initPool 1)).1.inFlight = 0) :=
  counters_conservation_law 1 (submit (initPool 1)).1
    (Reachable.tail (Reachable.refl (initPool 1)) (Step.submitStep (initPool 1)))

/-- C3: the admission decision of `Submit`.  If `inFlight < capacity` the unit
is admitted — `inFlight` and `totalSubmitted` are each incremented and the unit
is executed (once); if `inFlight = capacity` the submission is rejected —
`totalSubmitted` and `totalRejected` are each incremented, the unit is never
run, and the caller synchronously receives the rejection outcome. -/
theorem submit_admission_decision (p : Pool) :
    (p.inFlight < p.capacity →
      (submit p).2 = SubmitResult.admitted ∧
      (submit p).1 =
        Pool.mk p.capacity (p.inFlight + 1) (p.totalSubmitted + 1) p.totalRejected
          p.totalCompleted ∧
      (∀ e, (submitRun e p).2.2 = 1)) ∧
    (p.inFlight = p.capacity →
      (submit p).2 = SubmitResult.rejected ∧
      (submit p).1 =
        Pool.mk p.capacity p.inFlight (p.totalSubmitted + 1) (p.totalRejected + 1)
          p.totalCompleted ∧
      (∀ e, (submitRun e p).2.2 = 0)) := by
  constructor
  · intro hlt
    simp [submit, submitRun, hlt]
  · intro heq
    have hnlt : ¬ p.inFlight < p.capacity := by omega
    simp [submit, submitRun, hnlt]

theorem submit_admission_decision_witness :
    (submit (initPool 2)).2 = SubmitResult.admitted ∧
    (submit (Pool.mk 2 2 2 0 0)).2 = SubmitResult.rejected :=
  ⟨((submit_admission_decision (initPool 2)).1 (by decide)).1,
   ((submit_admission_decision (Pool.mk 2 2 2 0 0)).2 rfl).1⟩

/-- C4: for every exit path of an admitted unit's execution — normal return,
returned error, or panic — the completion bookkeeping runs: `inFlight` is
decremented and `totalCompleted` is incremented, and nothing else changes, so
the capacity slot is always released even when the unit itself fails. -/
theorem completion_runs_on_every_exit_path (e : ExitPath) (p : Pool) :
    (complete e p).inFlight = p.inFlight - 1 ∧
    (complete e p).totalCompleted = p.totalCompleted + 1 ∧
    (complete e p).capacity = p.capacity ∧
    (complete e p).totalSubmitted = p.totalSubmitted ∧
    (complete e p).totalRejected = p.totalRejected := by
  cases e <;> exact ⟨rfl, rfl, rfl, rfl, rfl⟩

/-- C5: construction with capacity ≤ 0 fails with `InvalidCapacity` and
produces no pool; construction with capacity > 0 succeeds, the pool's
`capacity` field equals the argument, and no reachable state ever mutates
it. -/
theorem newPool_validates_capacity (c : Int) :
    (c ≤ 0 → NewPool c = Except.error PoolError.invalidCapacity) ∧
    (0 < c →
      NewPool c = Except.ok (initPool c) ∧ (initPool c).capacity = c ∧
      ∀ p, Reachable (initPool c) p → p.capacity = c) := by
  constructor
  · intro h
    unfold NewPool
    rw [if_pos h]
  · intro h
    have hn : ¬ c ≤ 0 := by omega
    exact ⟨by unfold NewPool; rw [if_neg hn], rfl, fun p hp => (reachable_good c p hp).1⟩

theorem newPool_validates_capacity_witness :
    NewPool 0 = Except.error PoolError.invalidCapacity ∧
    NewPool 5000 = Except.ok (initPool 5000) :=
  ⟨(newPool_validates_capacity 0).1 (by decide),
   ((newPool_validates_capacity 5000).2 (by decide)).1⟩

/-- C6: the supplied unit of work is executed exactly once when the submission
is admitted and zero times when it is rejected, and the outcome the pool hands
the caller is the admission outcome — never the unit's own failure. -/
theorem unit_executed_once_iff_admitted (p : Pool) (e : ExitPath) :
    ((submitRun e p).2.2 = 1 ↔ (submit p).2 = SubmitResult.admitted) ∧
    ((submitRun e p).2.2 = 0 ↔ (submit p).2 = SubmitResult.rejected) ∧
    (submitRun e p).2.1 = (submit p).2 := by
  rcases hsub : submit p with ⟨q, r⟩
  cases r <;> simp [submitRun, hsub]

/-- C7: capacity-2 scenario — two admissions fill the pool, a third submission
is rejected with the counters as the spec states, completing unit 1 frees a
slot (inFlight 1, totalCompleted 1), and a fourth submission is then
admitted. -/
theorem capacity_two_scenario :
    NewPool 2 = Except.ok (initPool 2) ∧
    submit (initPool 2) = (Pool.mk 2 1 1 0 0, SubmitResult.admitted) ∧
    submit (Pool.mk 2 1 1 0 0) = (Pool.mk 2 2 2 0 0, SubmitResult.admitted) ∧
    submit (Pool.mk 2 2 2 0 0) = (Pool.mk 2 2 3 1 0, SubmitResult.rejected) ∧
    complete ExitPath.normal (Pool.mk 2 2 3 1 0) = Pool.mk 2 1 3 1 1 ∧
    submit (Pool.mk 2 1 3 1 1) = (Pool.mk 2 2 4 1 1, SubmitResult.admitted) := by
  refine ⟨rfl, ?_, ?_, ?_, rfl, ?_⟩ <;> simp [submit, initPool]

/-- C8: `Stats` returns a point-in-time copy of the five counters, all read
from the same single state (never a torn combination), and hands the pool back
with every field unchanged. -/
theorem stats_is_readonly_snapshot (p : Pool) :
    (statsOp p).2 = p ∧
    (statsOp p).1 =
      Stats.mk p.capacity p.inFlight p.totalSubmitted p.totalRejected p.totalCompleted :=
  ⟨rfl, rfl⟩

/-- C9: when no pool is configured (`pool == nil`), the wrapped route handler
runs `f` inline, synchronously, exactly once, with no pool bookkeeping; this
mode never rejects work, whatever the handler body's exit path. -/
theorem nil_pool_runs_inline (e : ExitPath) :
    routeHandler none e = RouteOutcome.mk 1 true none none ∧
    (routeHandler none e).poolOutcome ≠ some SubmitResult.rejected :=
  ⟨rfl, by simp [routeHandler]⟩

/-- C10: the `/stats` endpoint serves the all-zero `Stats` value when the pool
is nil, and exactly the snapshot `pool.Stats()` otherwise. -/
theorem stats_endpoint_zero_when_nil (p : Pool) :
    statsEndpoint none = Stats.mk 0 0 0 0 0 ∧
    statsEndpoint (some p) = stats p :=
  ⟨rfl, rfl⟩

end RideshareAdmission
